import Mathlib

/-!
# Loyalty service core: shallow embedding and verification

Shallow embedding of the loyalty-points domain service:

* domain types and the pure tier / ratio functions (src/domain/mod.rs),
* the reference in-memory loyalty store (src/adapters/database/memory.rs),
  with the process-wide HashMap modelled as an association list and the
  mutex-protected mutation modelled by explicit state passing,
* the AddPoints command handler (src/commands/add_points.rs), with the
  member-directory lookup result supplied as an input (the member port is
  an external collaborator) and the fresh event UUID supplied as a
  parameter.

Machine integers: Rust `u32` is modelled as `Nat` and `i32` as `Int`,
with two's-complement reduction (`wrap32`) applied exactly where the
source performs an `as i32` cast or an `i32` addition/multiplication
that may overflow (release-mode wrapping semantics).  Rust `f64` is
modelled by `F64`: NaN, the two infinities, and finite values as exact
rationals (every finite double is a rational); the saturating `as i32`
float cast is `f64AsI32`.
-/

/-- Two's-complement reduction of an integer into the `i32` range
`[-2^31, 2^31)`: the value a wrapping 32-bit signed operation yields. -/
def wrap32 (n : Int) : Int := (n + 2 ^ 31) % 2 ^ 32 - 2 ^ 31

/-- The Rust cast `p as i32` applied to a `u32` value `p`. -/
def u32AsI32 (p : Nat) : Int := wrap32 (p : Int)

/-- The property of being a representable `i32` value. -/
def validI32 (n : Int) : Prop := -2 ^ 31 ≤ n ∧ n < 2 ^ 31

instance (n : Int) : Decidable (validI32 n) := by
  unfold validI32
  infer_instance

theorem wrap32_eq_self (n : Int) (h1 : -2 ^ 31 ≤ n) (h2 : n < 2 ^ 31) : wrap32 n = n := by
  unfold wrap32
  omega

theorem wrap32_sub_pow_of_big (n : Int) (h1 : 2 ^ 31 ≤ n) (h2 : n < 2 ^ 32) :
    wrap32 n = n - 2 ^ 32 := by
  unfold wrap32
  omega

/-- Member tier, `domain::Tier` (src/domain/mod.rs). -/
inductive Tier where
  | none
  | basic
  | silver
  | gold
  | platinum
  deriving DecidableEq, Repr

/-- Points-per-currency-unit ratio, `Tier::ratio` (src/domain/mod.rs).
The source returns `i32`; every value is small and exact. -/
def Tier.ratio : Tier → Int
  | Tier.none => 0
  | Tier.basic => 10
  | Tier.silver => 12
  | Tier.gold => 15
  | Tier.platinum => 20

/-- Transient member value, `domain::Member` (src/domain/mod.rs).
UUIDs are opaque identifiers; they are modelled as `Nat`. -/
structure Member where
  member_id : Nat
  membership_months : Option Nat
  loyalty_points : Nat
  deriving DecidableEq, Repr

/-- `Member::new` (src/domain/mod.rs). -/
def Member.new (member_id : Nat) (membership_months : Option Nat) (loyalty_points : Nat) :
    Member :=
  Member.mk member_id membership_months loyalty_points

/-- `Member::tier` (src/domain/mod.rs): the range patterns
`None / Some(0..=11) / Some(12..=23) / Some(24..=35) / Some(_)`. -/
def Member.tier (m : Member) : Tier :=
  match m.membership_months with
  | Option.none => Tier.none
  | Option.some n =>
    if n ≤ 11 then Tier.basic
    else if n ≤ 23 then Tier.silver
    else if n ≤ 35 then Tier.gold
    else Tier.platinum

/-- A loyalty ledger entry, `domain::LoyaltyEvent` (src/domain/mod.rs).
`delta_points` is an `i32` value. -/
structure LoyaltyEvent where
  event_id : Nat
  delta_points : Int
  reason : String
  deriving DecidableEq, Repr

/-- Per-member loyalty aggregate, `domain::Loyalty` (src/domain/mod.rs).
`points` is a `u32` value. -/
structure Loyalty where
  member_id : Nat
  points : Nat
  events : List LoyaltyEvent
  deriving DecidableEq, Repr

/-- `Loyalty::new` (src/domain/mod.rs): zero points, empty ledger. -/
def Loyalty.new (member_id : Nat) : Loyalty :=
  Loyalty.mk member_id 0 []

/-- Error type of the database port (src/ports/database.rs).  The
`Adapter` variant only wraps mutex poisoning of the in-memory adapter,
a concurrency artefact outside this sequential embedding, so it is
omitted: in the embedding the store operations never raise it. -/
inductive DbError where
  | NegativePointsTotal (current_points : Nat) (delta_points : Int)
  deriving DecidableEq, Repr

/-- The in-memory store state: the `HashMap<Uuid, Loyalty>` of
`MemoryDatabase` (src/adapters/database/memory.rs), modelled as an
association list keyed by member id. -/
def MemoryDatabase : Type := List (Nat × Loyalty)

/-- `HashMap::get` on the store. -/
def dbLookup : MemoryDatabase → Nat → Option Loyalty
  | [], _ => Option.none
  | (k, v) :: rest, m => if k = m then Option.some v else dbLookup rest m

/-- Store an entry under a key: replaces an existing binding in place,
otherwise adds a new one (the write performed through the entry API). -/
def dbInsert : MemoryDatabase → Nat → Loyalty → MemoryDatabase
  | [], m, l => [(m, l)]
  | (k, v) :: rest, m, l =>
    if k = m then (m, l) :: rest else (k, v) :: dbInsert rest m l

/-- `MemoryDatabase::get_loyalty_points` (src/adapters/database/memory.rs):
look the member up, clone, or synthesize `Loyalty::new`.  The method only
reads the map, so the returned state (second component) is the input
state; it never fails with a not-found error. -/
def get_loyalty_points (db : MemoryDatabase) (member_id : Nat) : Loyalty × MemoryDatabase :=
  ((dbLookup db member_id).getD (Loyalty.new member_id), db)

/-- `MemoryDatabase::register_loyalty_event` (src/adapters/database/memory.rs).
Occupied entry: `new_points = loyalty.points as i32 + event.delta_points`
(wrapping `i32` addition), reject if negative, else store `new_points as
u32` and push the event.  Vacant entry: start from `Loyalty::new`, reject
a negative delta, else store `delta_points as u32` and insert. -/
def register_loyalty_event (db : MemoryDatabase) (member_id : Nat) (event : LoyaltyEvent) :
    Except DbError Loyalty × MemoryDatabase :=
  match dbLookup db member_id with
  | Option.some loyalty =>
    let new_points : Int := wrap32 (u32AsI32 loyalty.points + event.delta_points)
    if new_points < 0 then
      (Except.error (DbError.NegativePointsTotal loyalty.points event.delta_points), db)
    else
      let updated : Loyalty :=
        Loyalty.mk loyalty.member_id new_points.toNat (loyalty.events ++ [event])
      (Except.ok updated, dbInsert db member_id updated)
  | Option.none =>
    let loyalty : Loyalty := Loyalty.new member_id
    if event.delta_points < 0 then
      (Except.error (DbError.NegativePointsTotal loyalty.points event.delta_points), db)
    else
      let updated : Loyalty :=
        Loyalty.mk loyalty.member_id event.delta_points.toNat (loyalty.events ++ [event])
      (Except.ok updated, dbInsert db member_id updated)

/-- Run a sequence of `register_loyalty_event` calls for one member;
`Option.none` when some call is rejected. -/
def appendAll : MemoryDatabase → Nat → List LoyaltyEvent → Option MemoryDatabase
  | db, _, [] => Option.some db
  | db, m, e :: es =>
    match register_loyalty_event db m e with
    | (Except.ok _, db1) => appendAll db1 m es
    | (Except.error _, _) => Option.none

/-- Signed sum of the deltas of a list of events. -/
def sumDeltas : List LoyaltyEvent → Int
  | [] => 0
  | e :: es => e.delta_points + sumDeltas es

/-- A 64-bit float, modelled by its exact mathematical content: NaN,
the infinities, or a finite value (every finite double is rational). -/
inductive F64 where
  | nan
  | posInf
  | negInf
  | finite (q : Rat)
  deriving DecidableEq, Repr

/-- Truncation of a rational toward zero (the rounding a Rust
float-to-int `as` cast performs before saturating). -/
def ratTrunc (q : Rat) : Int :=
  if 0 ≤ q.num then ((q.num.toNat / q.den : Nat) : Int)
  else -(((-q.num).toNat / q.den : Nat) : Int)

/-- The Rust cast `a as i32` on an `f64` value: NaN becomes 0, values
outside the `i32` range saturate to the nearest bound, finite in-range
values truncate toward zero. -/
def f64AsI32 : F64 → Int
  | F64.nan => 0
  | F64.posInf => 2 ^ 31 - 1
  | F64.negInf => -2 ^ 31
  | F64.finite q =>
    if ratTrunc q < -2 ^ 31 then -2 ^ 31
    else if 2 ^ 31 - 1 < ratTrunc q then 2 ^ 31 - 1
    else ratTrunc q

/-- `commands::add_points::AddPointsEvent` (src/commands/add_points.rs). -/
inductive AddPointsEvent where
  | membershipRenewed
  | inStorePurchase (purchase_amount : F64)
  | onlinePurchase (purchase_amount : F64)
  | manual (loyalty_points : Nat) (reason : Option String)
  deriving DecidableEq, Repr

/-- `AddPointsEvent::reason` (src/commands/add_points.rs). -/
def AddPointsEvent.reason : AddPointsEvent → String
  | AddPointsEvent.membershipRenewed => "Membership renewed"
  | AddPointsEvent.inStorePurchase _ => "In-store purchase"
  | AddPointsEvent.onlinePurchase _ => "Online purchase"
  | AddPointsEvent.manual _ r => r.getD "Manual addition"

/-- `create_event` (src/commands/add_points.rs).  Purchases compute
`purchase_amount as i32 * tier.ratio()` — a saturating float cast
followed by a wrapping `i32` multiplication; manual additions cast the
`u32` point amount with `as i32`.  The fresh `Uuid::new_v4()` is
supplied as the parameter `eid`. -/
def create_event (eid : Nat) (tier : Tier) (input : AddPointsEvent) : LoyaltyEvent :=
  let delta_points : Int :=
    match input with
    | AddPointsEvent.membershipRenewed => 290
    | AddPointsEvent.inStorePurchase purchase_amount => wrap32 (f64AsI32 purchase_amount * tier.ratio)
    | AddPointsEvent.onlinePurchase purchase_amount => wrap32 (f64AsI32 purchase_amount * tier.ratio)
    | AddPointsEvent.manual loyalty_points _ => u32AsI32 loyalty_points
  LoyaltyEvent.mk eid delta_points input.reason

/-- A UTC instant reduced to the calendar components the handler can
observe through chrono's `Datelike` (year, month, day).  `months_since`
reads only year and month. -/
structure UTCDate where
  year : Int
  month : Nat
  day : Nat
  deriving DecidableEq, Repr

/-- `commands::Error` (src/commands/mod.rs).  The `Member` variant wraps
member-port failures; the embedded handler receives the directory record
as an input (a successful port call), so that variant never arises and
is omitted. -/
inductive CmdError where
  | database (e : DbError)
  | invalidState (msg : String)
  deriving DecidableEq, Repr

/-- `months_since` (src/commands/add_points.rs):
`(now.year() - date.year()) * 12 + date.month() as i32 - now.month() as i32`,
failing with `InvalidState` when negative.  chrono years are bounded far
inside `i32`, so the arithmetic is exact. -/
def months_since (now : UTCDate) (date : UTCDate) : Except CmdError Nat :=
  let months : Int := (now.year - date.year) * 12 + (date.month : Int) - (now.month : Int)
  if months < 0 then
    Except.error (CmdError.invalidState
      ("start date is " ++ toString (-months) ++ " month(s) in the past"))
  else
    Except.ok months.toNat

/-- The member-directory record, `ports::member::Member`
(src/ports/member.rs). -/
structure DirMember where
  member_id : Nat
  active_member : Bool
  membership_since : UTCDate
  deriving DecidableEq, Repr

/-- `AddPointsResponse` (src/commands/add_points.rs). -/
structure AddPointsResponse where
  member_id : Nat
  tier : Tier
  old_loyalty_points : Nat
  new_loyalty_points : Nat
  deriving DecidableEq, Repr

/-- The AddPoints handler body, `Service::call` (src/commands/add_points.rs),
after a successful member-port lookup (`db_member` is the directory
record the port returned, `now` the current UTC time, `eid` the fresh
event UUID).  Orchestration: read the loyalty, compute
`membership_months` (absent when inactive, else `months_since` with its
error propagated), build the member, create and register the event, and
assemble the response. -/
def call (db : MemoryDatabase) (db_member : DirMember) (now : UTCDate) (eid : Nat)
    (ev : AddPointsEvent) : Except CmdError AddPointsResponse × MemoryDatabase :=
  let loyalty := (get_loyalty_points db db_member.member_id).1
  match (if db_member.active_member then
           Except.map Option.some (months_since now db_member.membership_since)
         else Except.ok Option.none) with
  | Except.error e => (Except.error e, db)
  | Except.ok membership_months =>
    let member := Member.new db_member.member_id membership_months loyalty.points
    let event := create_event eid member.tier ev
    match register_loyalty_event db member.member_id event with
    | (Except.error e, db1) => (Except.error (CmdError.database e), db1)
    | (Except.ok updated, db1) =>
      (Except.ok (AddPointsResponse.mk member.member_id member.tier loyalty.points
        updated.points), db1)

/-! ## Store lemmas -/

theorem dbLookup_dbInsert_self (db : MemoryDatabase) (m : Nat) (l : Loyalty) :
    dbLookup (dbInsert db m l) m = Option.some l := by
  induction db with
  | nil => simp [dbInsert, dbLookup]
  | cons kv rest ih =>
    obtain ⟨k, v⟩ := kv
    by_cases hk : k = m
    · simp [dbInsert, dbLookup, hk]
    · simp [dbInsert, dbLookup, hk, ih]

theorem dbLookup_dbInsert_ne (db : MemoryDatabase) (m m' : Nat) (l : Loyalty)
    (h : m' ≠ m) :
    dbLookup (dbInsert db m l) m' = dbLookup db m' := by
  have hne : m ≠ m' := fun hc => h hc.symm
  induction db with
  | nil => simp [dbInsert, dbLookup, hne]
  | cons kv rest ih =>
    obtain ⟨k, v⟩ := kv
    by_cases hk : k = m
    · subst hk
      simp [dbInsert, dbLookup, hne]
    · simp [dbInsert, dbLookup, hk, ih]

/-- Exhaustive behaviour of one `register_loyalty_event` call, assuming
the stored total is a representable non-negative `i32` (an invariant of
all reachable stores) and the event delta is a representable `i32`:
either the new signed total lies in `[0, 2^31)` and the call appends,
or the call rejects, returns the state unchanged, and reports the
current total and the delta. -/
theorem register_spec (db : MemoryDatabase) (m : Nat) (e : LoyaltyEvent)
    (hv : validI32 e.delta_points)
    (hp : ((get_loyalty_points db m).1.points : Int) < 2 ^ 31) :
    (0 ≤ ((get_loyalty_points db m).1.points : Int) + e.delta_points ∧
      ((get_loyalty_points db m).1.points : Int) + e.delta_points < 2 ^ 31 ∧
      ∃ l, register_loyalty_event db m e = (Except.ok l, dbInsert db m l) ∧
        (l.points : Int) = ((get_loyalty_points db m).1.points : Int) + e.delta_points) ∨
    register_loyalty_event db m e =
      (Except.error (DbError.NegativePointsTotal (get_loyalty_points db m).1.points
        e.delta_points), db) := by
  obtain ⟨hv1, hv2⟩ := hv
  cases hdb : dbLookup db m with
  | none =>
    simp only [get_loyalty_points, hdb, Option.getD_none] at hp ⊢
    by_cases hneg : e.delta_points < 0
    · right
      simp [register_loyalty_event, hdb, hneg, Loyalty.new]
    · left
      push_neg at hneg
      refine ⟨by simpa [Loyalty.new] using hneg, by simp [Loyalty.new]; omega, ?_⟩
      refine ⟨Loyalty.mk m e.delta_points.toNat [e], ?_, ?_⟩
      · simp [register_loyalty_event, hdb, not_lt.mpr hneg, Loyalty.new]
      · simp [Loyalty.new]
        omega
  | some l0 =>
    simp only [get_loyalty_points, hdb, Option.getD_some] at hp ⊢
    have hcast : u32AsI32 l0.points = (l0.points : Int) :=
      wrap32_eq_self _ (by omega) hp
    have hrange : -2 ^ 31 ≤ (l0.points : Int) + e.delta_points ∧
        (l0.points : Int) + e.delta_points < 2 ^ 32 := ⟨by omega, by omega⟩
    by_cases hneg : (l0.points : Int) + e.delta_points < 0
    · right
      have hw : wrap32 (u32AsI32 l0.points + e.delta_points) =
          (l0.points : Int) + e.delta_points := by
        rw [hcast]
        exact wrap32_eq_self _ hrange.1 (by omega)
      simp [register_loyalty_event, hdb, hw, hneg]
    · push_neg at hneg
      by_cases hbig : 2 ^ 31 ≤ (l0.points : Int) + e.delta_points
      · right
        have hw : wrap32 (u32AsI32 l0.points + e.delta_points) =
            (l0.points : Int) + e.delta_points - 2 ^ 32 := by
          rw [hcast]
          exact wrap32_sub_pow_of_big _ hbig hrange.2
        have hlt : (l0.points : Int) + e.delta_points - 2 ^ 32 < 0 := by omega
        simp [register_loyalty_event, hdb, hw, hlt]
        omega
      · left
        push_neg at hbig
        have hw : wrap32 (u32AsI32 l0.points + e.delta_points) =
            (l0.points : Int) + e.delta_points := by
          rw [hcast]
          exact wrap32_eq_self _ hrange.1 hbig
        refine ⟨hneg, hbig, ?_⟩
        refine ⟨Loyalty.mk l0.member_id ((l0.points : Int) + e.delta_points).toNat
          (l0.events ++ [e]), ?_, by simp; omega⟩
        simp [register_loyalty_event, hdb, hw, not_lt.mpr hneg]

theorem appendAll_append (m : Nat) (xs ys : List LoyaltyEvent) : ∀ db : MemoryDatabase,
    appendAll db m (xs ++ ys) =
      Option.bind (appendAll db m xs) (fun db1 => appendAll db1 m ys) := by
  induction xs with
  | nil =>
    intro db
    simp [appendAll]
  | cons e es ih =>
    intro db
    rcases hreg : register_loyalty_event db m e with ⟨r, db1⟩
    cases r with
    | ok l => simp [appendAll, hreg, ih]
    | error err => simp [appendAll, hreg]

/-- Running invariant of a successful event sequence: the stored total
moves by exactly the signed sum of the deltas and stays a representable
`i32`. -/
theorem appendAll_spec (m : Nat) (es : List LoyaltyEvent) : ∀ db db1 : MemoryDatabase,
    (∀ e ∈ es, validI32 e.delta_points) →
    ((get_loyalty_points db m).1.points : Int) < 2 ^ 31 →
    appendAll db m es = Option.some db1 →
    ((get_loyalty_points db1 m).1.points : Int) =
      ((get_loyalty_points db m).1.points : Int) + sumDeltas es ∧
    ((get_loyalty_points db1 m).1.points : Int) < 2 ^ 31 := by
  induction es with
  | nil =>
    intro db db1 _ hp h
    simp only [appendAll, Option.some.injEq] at h
    subst h
    exact ⟨by simp [sumDeltas], hp⟩
  | cons e es ih =>
    intro db db1 hv hp h
    rcases register_spec db m e (hv e (List.mem_cons_self e es)) hp with hok | herr
    · obtain ⟨h0, h1, l, hreg, hpts⟩ := hok
      simp only [appendAll, hreg] at h
      have hnew : ((get_loyalty_points (dbInsert db m l) m).1.points : Int) =
          (l.points : Int) := by
        simp [get_loyalty_points, dbLookup_dbInsert_self]
      have hv' : ∀ x ∈ es, validI32 x.delta_points :=
        fun x hx => hv x (List.mem_cons_of_mem e hx)
      have hp' : ((get_loyalty_points (dbInsert db m l) m).1.points : Int) < 2 ^ 31 := by
        rw [hnew, hpts]
        exact h1
      obtain ⟨hsum, hlt⟩ := ih (dbInsert db m l) db1 hv' hp' h
      refine ⟨?_, hlt⟩
      rw [hsum, hnew, hpts]
      simp only [sumDeltas]
      ring
    · simp [appendAll, herr] at h

/-- Claim C1: for every member and every sequence of
`register_loyalty_event` calls accepted by the reference store, after
each accepted append the stored points total equals the signed sum of
the delta_points of all events appended so far, and that running total
is non-negative after each append. -/
theorem claim_C1_sum_law (db : MemoryDatabase) (m : Nat) (es : List LoyaltyEvent) (k : Nat)
    (hv : ∀ e ∈ es, validI32 e.delta_points)
    (h0 : dbLookup db m = Option.none)
    (hacc : (appendAll db m es).isSome = true)
    (hk : k ≤ es.length) :
    0 ≤ sumDeltas (List.take k es) ∧
    ∃ dbk, appendAll db m (List.take k es) = Option.some dbk ∧
      ((get_loyalty_points dbk m).1.points : Int) = sumDeltas (List.take k es) := by
  have hsplit : appendAll db m es =
      Option.bind (appendAll db m (List.take k es))
        (fun d => appendAll d m (List.drop k es)) := by
    rw [← appendAll_append m (List.take k es) (List.drop k es) db, List.take_append_drop]
  rw [hsplit] at hacc
  cases htk : appendAll db m (List.take k es) with
  | none =>
    rw [htk] at hacc
    simp at hacc
  | some dbk =>
    have hv' : ∀ e ∈ List.take k es, validI32 e.delta_points :=
      fun e he => hv e (List.take_subset k es he)
    have hzero : ((get_loyalty_points db m).1.points : Int) = 0 := by
      simp [get_loyalty_points, h0, Loyalty.new]
    obtain ⟨hsum, hlt⟩ := appendAll_spec m (List.take k es) db dbk hv'
      (by rw [hzero]; norm_num) htk
    rw [hzero, zero_add] at hsum
    refine ⟨?_, dbk, rfl, hsum⟩
    rw [← hsum]
    positivity

/-- Witness for C1: the empty store, two accepted events with deltas
`+5` and `-3`; after both appends the total is their signed sum `2`. -/
theorem claim_C1_sum_law_witness :
    0 ≤ sumDeltas (List.take 2 [LoyaltyEvent.mk 10 5 "", LoyaltyEvent.mk 11 (-3) ""]) ∧
    ∃ dbk,
      appendAll [] 0 (List.take 2 [LoyaltyEvent.mk 10 5 "", LoyaltyEvent.mk 11 (-3) ""]) =
        Option.some dbk ∧
      ((get_loyalty_points dbk 0).1.points : Int) =
        sumDeltas (List.take 2 [LoyaltyEvent.mk 10 5 "", LoyaltyEvent.mk 11 (-3) ""]) :=
  claim_C1_sum_law [] 0 [LoyaltyEvent.mk 10 5 "", LoyaltyEvent.mk 11 (-3) ""] 2
    (by decide) rfl (by decide) (by decide)

/-- Claim C2: whenever `register_loyalty_event` returns
`NegativePointsTotal`, the store state is unchanged — no event appended
and no record created — and the error carries the member's current
points total and the proposed delta. -/
theorem claim_C2_error_atomicity (db db1 : MemoryDatabase) (m : Nat) (e : LoyaltyEvent)
    (err : DbError)
    (h : register_loyalty_event db m e = (Except.error err, db1)) :
    db1 = db ∧
      err = DbError.NegativePointsTotal (get_loyalty_points db m).1.points
        e.delta_points := by
  cases hdb : dbLookup db m with
  | none =>
    simp only [register_loyalty_event, hdb] at h
    split at h <;> simp_all [get_loyalty_points, Loyalty.new]
  | some l0 =>
    simp only [register_loyalty_event, hdb] at h
    split at h <;> simp_all [get_loyalty_points]

/-- Witness for C2: appending `delta_points = -5` to the empty store is
rejected with `current = 0`, `delta = -5`, and the store stays empty. -/
theorem claim_C2_error_atomicity_witness :
    ([] : MemoryDatabase) = [] ∧
      DbError.NegativePointsTotal 0 (-5) =
        DbError.NegativePointsTotal (get_loyalty_points [] 0).1.points
          (LoyaltyEvent.mk 0 (-5) "").delta_points :=
  claim_C2_error_atomicity [] [] 0 (LoyaltyEvent.mk 0 (-5) "")
    (DbError.NegativePointsTotal 0 (-5)) rfl

/-- Claim C8: for a member id with no stored record,
`get_loyalty_points` returns a fresh `Loyalty` with that member id,
zero points and an empty event list (and, having no not-found error in
its type, it never fails with one). -/
theorem claim_C8_fresh_loyalty (db : MemoryDatabase) (m : Nat)
    (h : dbLookup db m = Option.none) :
    (get_loyalty_points db m).1 = Loyalty.mk m 0 [] := by
  simp [get_loyalty_points, h, Loyalty.new]

/-- Witness for C8 on the empty store. -/
theorem claim_C8_fresh_loyalty_witness :
    (get_loyalty_points [] 7).1 = Loyalty.mk 7 0 [] :=
  claim_C8_fresh_loyalty [] 7 rfl

/-- Claim C10: a `register_loyalty_event` call for member `m` — whether
it succeeds or errors — leaves the stored record of every other member
unchanged, and `get_loyalty_points` returns the store state unmodified. -/
theorem claim_C10_frame (db : MemoryDatabase) (m m' : Nat) (e : LoyaltyEvent)
    (h : m' ≠ m) :
    dbLookup (register_loyalty_event db m e).2 m' = dbLookup db m' ∧
    (get_loyalty_points db m).2 = db := by
  refine ⟨?_, rfl⟩
  cases hdb : dbLookup db m with
  | none =>
    simp only [register_loyalty_event, hdb]
    split
    · rfl
    · exact dbLookup_dbInsert_ne db m m' _ h
  | some l0 =>
    simp only [register_loyalty_event, hdb]
    split
    · rfl
    · exact dbLookup_dbInsert_ne db m m' _ h

/-- Witness for C10: appending for member 2 leaves member 1's record
untouched; reading member 2 leaves the store as it was. -/
theorem claim_C10_frame_witness :
    dbLookup (register_loyalty_event [(1, Loyalty.mk 1 5 [])] 2 (LoyaltyEvent.mk 0 3 "")).2 1 =
      dbLookup [(1, Loyalty.mk 1 5 [])] 1 ∧
    (get_loyalty_points [(1, Loyalty.mk 1 5 [])] 2).2 = [(1, Loyalty.mk 1 5 [])] :=
  claim_C10_frame [(1, Loyalty.mk 1 5 [])] 2 1 (LoyaltyEvent.mk 0 3 "") (by decide)

/-- Claim C3, amended: for a finite purchase amount whose truncation
lies in the `i32` range and whose product with the tier ratio also lies
in the `i32` range, the created event's delta is exactly
`trunc(a) * ratio(T)` — the amount is truncated toward zero BEFORE the
multiplication — and the ratio table is 0, 10, 12, 15, 20.  (Outside
that range the `i32` product wraps; see the counterexample.) -/
theorem claim_C3_purchase_delta (eid : Nat) (t : Tier) (a : Rat)
    (h1 : -2 ^ 31 ≤ ratTrunc a) (h2 : ratTrunc a ≤ 2 ^ 31 - 1)
    (h3 : -2 ^ 31 ≤ ratTrunc a * t.ratio) (h4 : ratTrunc a * t.ratio < 2 ^ 31) :
    (create_event eid t (AddPointsEvent.inStorePurchase (F64.finite a))).delta_points =
      ratTrunc a * t.ratio ∧
    (create_event eid t (AddPointsEvent.onlinePurchase (F64.finite a))).delta_points =
      ratTrunc a * t.ratio ∧
    Tier.ratio Tier.none = 0 ∧ Tier.ratio Tier.basic = 10 ∧
    Tier.ratio Tier.silver = 12 ∧ Tier.ratio Tier.gold = 15 ∧
    Tier.ratio Tier.platinum = 20 := by
  have hf : f64AsI32 (F64.finite a) = ratTrunc a := by
    simp only [f64AsI32]
    rw [if_neg (by omega), if_neg (by omega)]
  refine ⟨?_, ?_, rfl, rfl, rfl, rfl, rfl⟩ <;>
    simp [create_event, hf, wrap32_eq_self _ h3 h4]

/-- Witness for C3: a Silver-tier purchase of amount 3 yields
`trunc(3) * 12 = 36`. -/
theorem claim_C3_purchase_delta_witness :
    (create_event 0 Tier.silver
        (AddPointsEvent.inStorePurchase (F64.finite (3 : Rat)))).delta_points =
      ratTrunc (3 : Rat) * Tier.ratio Tier.silver ∧
    (create_event 0 Tier.silver
        (AddPointsEvent.onlinePurchase (F64.finite (3 : Rat)))).delta_points =
      ratTrunc (3 : Rat) * Tier.ratio Tier.silver ∧
    Tier.ratio Tier.none = 0 ∧ Tier.ratio Tier.basic = 10 ∧
    Tier.ratio Tier.silver = 12 ∧ Tier.ratio Tier.gold = 15 ∧
    Tier.ratio Tier.platinum = 20 :=
  claim_C3_purchase_delta 0 Tier.silver (3 : Rat)
    (by decide) (by decide) (by decide) (by decide)

/-- Counterexample to C3 as stated: for the exactly representable
amount `a = 2^27 = 134217728` at Platinum tier, `trunc(a) * ratio =
2684354560` exceeds the `i32` range, and the code's wrapping 32-bit
multiplication stores `-1610612736` instead. -/
theorem claim_C3_counterexample :
    (create_event 0 Tier.platinum
        (AddPointsEvent.inStorePurchase (F64.finite (134217728 : Rat)))).delta_points ≠
      ratTrunc (134217728 : Rat) * Tier.ratio Tier.platinum := by
  decide

/-- Claim C7, amended: for `Manual { loyalty_points = p, reason }` with
`p < 2^31`, the created event's delta is `+p` regardless of tier, and
its reason is the supplied string when present, else the literal
string for a manual addition.  (For `p ≥ 2^31` the `u32` value wraps to
`p - 2^32` under the `as i32` cast; see the counterexample.) -/
theorem claim_C7_manual_delta (eid : Nat) (t : Tier) (p : Nat) (r : Option String)
    (hp : p < 2 ^ 31) :
    (create_event eid t (AddPointsEvent.manual p r)).delta_points = (p : Int) ∧
    (create_event eid t (AddPointsEvent.manual p r)).reason =
      r.getD "Manual addition" := by
  constructor
  · have hcast : u32AsI32 p = (p : Int) := wrap32_eq_self _ (by omega) (by omega)
    simp [create_event, hcast]
  · simp [create_event, AddPointsEvent.reason]

/-- Witness for C7: a manual event of 5 points with no reason yields
delta 5 and the default manual-addition reason. -/
theorem claim_C7_manual_delta_witness :
    (create_event 0 Tier.none (AddPointsEvent.manual 5 Option.none)).delta_points = (5 : Int) ∧
    (create_event 0 Tier.none (AddPointsEvent.manual 5 Option.none)).reason =
      (Option.none : Option String).getD "Manual addition" :=
  claim_C7_manual_delta 0 Tier.none 5 Option.none (by decide)

/-- Counterexample to C7 as stated: the non-negative `u32` value
`p = 2^31 = 2147483648` does not survive the `as i32` cast; the stored
delta is `-2147483648`, not `+p`. -/
theorem claim_C7_counterexample :
    (create_event 0 Tier.none (AddPointsEvent.manual 2147483648 Option.none)).delta_points ≠
      (2147483648 : Int) := by
  decide

/-- Claim C9: `create_event` is total over all 64-bit float purchase
amounts: for every in-store or online purchase, including NaN and the
infinities, it produces an event (the wrapping product of the cast
amount and the ratio), a NaN amount converts to 0, and amounts whose
truncation falls outside the `i32` range saturate to the 32-bit
minimum/maximum before the multiplication by the ratio. -/
theorem claim_C9_totality (eid : Nat) (t : Tier) (a : F64) :
    (create_event eid t (AddPointsEvent.inStorePurchase a)).delta_points =
      wrap32 (f64AsI32 a * t.ratio) ∧
    (create_event eid t (AddPointsEvent.onlinePurchase a)).delta_points =
      wrap32 (f64AsI32 a * t.ratio) ∧
    (create_event eid t (AddPointsEvent.inStorePurchase F64.nan)).delta_points = 0 ∧
    f64AsI32 F64.nan = 0 ∧
    f64AsI32 F64.posInf = 2 ^ 31 - 1 ∧
    f64AsI32 F64.negInf = -2 ^ 31 ∧
    (∀ q : Rat, 2 ^ 31 - 1 < ratTrunc q → f64AsI32 (F64.finite q) = 2 ^ 31 - 1) ∧
    (∀ q : Rat, ratTrunc q < -2 ^ 31 → f64AsI32 (F64.finite q) = -2 ^ 31) := by
  refine ⟨rfl, rfl, ?_, rfl, rfl, rfl, ?_, ?_⟩
  · simp only [create_event, f64AsI32, zero_mul]
    unfold wrap32
    norm_num
  · intro q hq
    simp only [f64AsI32]
    rw [if_neg (by omega), if_pos hq]
  · intro q hq
    simp only [f64AsI32]
    rw [if_pos hq]

/-- Witness for C9 at the positive infinity amount. -/
theorem claim_C9_totality_witness :
    (create_event 0 Tier.basic (AddPointsEvent.inStorePurchase F64.posInf)).delta_points =
      wrap32 (f64AsI32 F64.posInf * Tier.ratio Tier.basic) ∧
    (create_event 0 Tier.basic (AddPointsEvent.onlinePurchase F64.posInf)).delta_points =
      wrap32 (f64AsI32 F64.posInf * Tier.ratio Tier.basic) ∧
    (create_event 0 Tier.basic (AddPointsEvent.inStorePurchase F64.nan)).delta_points = 0 ∧
    f64AsI32 F64.nan = 0 ∧
    f64AsI32 F64.posInf = 2 ^ 31 - 1 ∧
    f64AsI32 F64.negInf = -2 ^ 31 ∧
    (∀ q : Rat, 2 ^ 31 - 1 < ratTrunc q → f64AsI32 (F64.finite q) = 2 ^ 31 - 1) ∧
    (∀ q : Rat, ratTrunc q < -2 ^ 31 → f64AsI32 (F64.finite q) = -2 ^ 31) :=
  claim_C9_totality 0 Tier.basic F64.posInf

/-- Claim C6: the tier function is total and deterministic, yielding
`None` when `membership_months` is absent, Basic for 0 to 11, Silver
for 12 to 23, Gold for 24 to 35, and Platinum from 36 up. -/
theorem claim_C6_tier_table (mid lp n : Nat) :
    (Member.new mid Option.none lp).tier = Tier.none ∧
    (n ≤ 11 → (Member.new mid (Option.some n) lp).tier = Tier.basic) ∧
    (12 ≤ n → n ≤ 23 → (Member.new mid (Option.some n) lp).tier = Tier.silver) ∧
    (24 ≤ n → n ≤ 35 → (Member.new mid (Option.some n) lp).tier = Tier.gold) ∧
    (36 ≤ n → (Member.new mid (Option.some n) lp).tier = Tier.platinum) := by
  refine ⟨rfl, ?_, ?_, ?_, ?_⟩ <;>
    · intros
      simp only [Member.new, Member.tier]
      split_ifs <;> first | rfl | omega

/-- Witness for C6 at the Silver boundary month count 12. -/
theorem claim_C6_tier_table_witness :
    (Member.new 0 Option.none 0).tier = Tier.none ∧
    (12 ≤ 11 → (Member.new 0 (Option.some 12) 0).tier = Tier.basic) ∧
    (12 ≤ 12 → 12 ≤ 23 → (Member.new 0 (Option.some 12) 0).tier = Tier.silver) ∧
    (24 ≤ 12 → 12 ≤ 35 → (Member.new 0 (Option.some 12) 0).tier = Tier.gold) ∧
    (36 ≤ 12 → (Member.new 0 (Option.some 12) 0).tier = Tier.platinum) :=
  claim_C6_tier_table 0 0 12

/-- Claim C4, amended: for an active member, the handler fails with
`InvalidState` exactly when the month formula
`(now.year - since.year) * 12 + (since.month - now.month)` is negative
— a condition on calendar components that is NOT the same as
`membership_since` lying in the future (the month term is reversed):
a start date in the previous calendar month of the same year triggers
it, while `now + 40 days` within the same calendar year does not — and
the message is then the literal string with the negated formula value. -/
theorem claim_C4_invalid_state (db : MemoryDatabase) (dirm : DirMember) (now : UTCDate)
    (eid : Nat) (ev : AddPointsEvent) (msg : String)
    (ha : dirm.active_member = true) :
    (call db dirm now eid ev).1 = Except.error (CmdError.invalidState msg) ↔
      ((now.year - dirm.membership_since.year) * 12 +
          (dirm.membership_since.month : Int) - (now.month : Int) < 0 ∧
        msg = "start date is " ++
          toString (-((now.year - dirm.membership_since.year) * 12 +
            (dirm.membership_since.month : Int) - (now.month : Int))) ++
          " month(s) in the past") := by
  by_cases hf : (now.year - dirm.membership_since.year) * 12 +
      (dirm.membership_since.month : Int) - (now.month : Int) < 0
  · have hm : months_since now dirm.membership_since =
        Except.error (CmdError.invalidState ("start date is " ++
          toString (-((now.year - dirm.membership_since.year) * 12 +
            (dirm.membership_since.month : Int) - (now.month : Int))) ++
          " month(s) in the past")) := by
      simp only [months_since]
      rw [if_pos hf]
    simp only [call, ha, if_true, Except.map, hm]
    simp [hf, eq_comm]
  · have hm : months_since now dirm.membership_since =
        Except.ok ((now.year - dirm.membership_since.year) * 12 +
          (dirm.membership_since.month : Int) - (now.month : Int)).toNat := by
      simp only [months_since]
      rw [if_neg hf]
    simp only [call, ha, if_true, Except.map, hm]
    constructor
    · intro h
      split at h <;> simp_all
    · rintro ⟨hlt, -⟩
      exact absurd hlt hf

/-- Witness for C4 (amended): `since` one calendar month before `now`
(2026-09 against 2026-10) makes the formula `-1`, and the handler fails
with the literal message naming one month. -/
theorem claim_C4_invalid_state_witness :
    (call [] (DirMember.mk 0 true (UTCDate.mk 2026 9 12)) (UTCDate.mk 2026 10 12) 0
        AddPointsEvent.membershipRenewed).1 =
      Except.error (CmdError.invalidState "start date is 1 month(s) in the past") ↔
      ((((UTCDate.mk 2026 10 12).year - (UTCDate.mk 2026 9 12).year) * 12 +
          ((UTCDate.mk 2026 9 12).month : Int) - ((UTCDate.mk 2026 10 12).month : Int) < 0) ∧
        "start date is 1 month(s) in the past" = "start date is " ++
          toString (-(((UTCDate.mk 2026 10 12).year - (UTCDate.mk 2026 9 12).year) * 12 +
            ((UTCDate.mk 2026 9 12).month : Int) - ((UTCDate.mk 2026 10 12).month : Int))) ++
          " month(s) in the past") :=
  claim_C4_invalid_state [] (DirMember.mk 0 true (UTCDate.mk 2026 9 12))
    (UTCDate.mk 2026 10 12) 0 AddPointsEvent.membershipRenewed
    "start date is 1 month(s) in the past" rfl

/-- Counterexample to C4 as stated: with `membership_since = now + 40
days` inside the same calendar year (now 2026-10-12, since 2026-11-21),
the month formula yields `+1`, so the handler does NOT fail with
`InvalidState`; it succeeds, treating the member as one month old
(Basic tier), refuting both the failure-iff-future reading and the
claimed concrete failure. -/
theorem claim_C4_counterexample :
    (call [] (DirMember.mk 0 true (UTCDate.mk 2026 11 21)) (UTCDate.mk 2026 10 12) 0
        AddPointsEvent.membershipRenewed).1 =
      Except.ok (AddPointsResponse.mk 0 Tier.basic 0 290) := by
  rfl

/-- Claim C5: for an active member the handler computes
`membership_months` as `(now.year - since.year) * 12 + (since.month -
now.month)` from calendar components only, and whenever that value is
non-negative it proceeds with exactly that value (the member whose tier
the response reports carries it); the day-of-month components are never
consulted. -/
theorem claim_C5_month_formula (db : MemoryDatabase) (dirm : DirMember) (now : UTCDate)
    (eid : Nat) (ev : AddPointsEvent) (resp : AddPointsResponse) (d d' : Nat)
    (ha : dirm.active_member = true)
    (h0 : 0 ≤ (now.year - dirm.membership_since.year) * 12 +
      (dirm.membership_since.month : Int) - (now.month : Int))
    (hr : (call db dirm now eid ev).1 = Except.ok resp) :
    months_since now dirm.membership_since =
      Except.ok ((now.year - dirm.membership_since.year) * 12 +
        (dirm.membership_since.month : Int) - (now.month : Int)).toNat ∧
    resp.tier = (Member.new dirm.member_id
      (Option.some ((now.year - dirm.membership_since.year) * 12 +
        (dirm.membership_since.month : Int) - (now.month : Int)).toNat)
      ((get_loyalty_points db dirm.member_id).1).points).tier ∧
    months_since (UTCDate.mk now.year now.month d)
      (UTCDate.mk dirm.membership_since.year dirm.membership_since.month d') =
      months_since now dirm.membership_since := by
  have hm : months_since now dirm.membership_since =
      Except.ok ((now.year - dirm.membership_since.year) * 12 +
        (dirm.membership_since.month : Int) - (now.month : Int)).toNat := by
    simp only [months_since]
    rw [if_neg (not_lt.mpr h0)]
  refine ⟨hm, ?_, rfl⟩
  simp only [call, ha, if_true, Except.map, hm] at hr
  split at hr
  · simp at hr
  · simp only [Except.ok.injEq] at hr
    rw [← hr]

/-- Witness for C5: the repository's own fixture dates — membership
since 2024-11-12, now 2026-10-12 (700 days apart) — give the formula
value 25, Gold tier, and the day components are irrelevant. -/
theorem claim_C5_month_formula_witness :
    months_since (UTCDate.mk 2026 10 12) (UTCDate.mk 2024 11 12) = Except.ok 25 ∧
    (AddPointsResponse.mk 0 Tier.gold 305 595).tier =
      (Member.new 0 (Option.some 25)
        ((get_loyalty_points [(0, Loyalty.mk 0 305 [])] 0).1).points).tier ∧
    months_since (UTCDate.mk 2026 10 3) (UTCDate.mk 2024 11 4) =
      months_since (UTCDate.mk 2026 10 12) (UTCDate.mk 2024 11 12) :=
  claim_C5_month_formula [(0, Loyalty.mk 0 305 [])]
    (DirMember.mk 0 true (UTCDate.mk 2024 11 12)) (UTCDate.mk 2026 10 12) 7
    AddPointsEvent.membershipRenewed (AddPointsResponse.mk 0 Tier.gold 305 595) 3 4
    rfl (by decide) rfl
